import Mathlib

/-!
esp-idf-wav-player: file enumeration, I2S bring-up and WAV streaming

A shallow embedding of

* `managed_components/zatouna__file_manager/file_manager.c`
  (`file_manager_init`, `file_manager_get_info`,
  `file_manager_process_wav_files`, `file_manager_deinit`),
* `managed_components/zatouna__i2s_manager/i2s_manager.c` (`init_i2s`),
* `main/spiffs_example_main.c` (`audio_write_cb`, `play_wav_file`),

together with the properties the specification states about them.

C strings are lists of characters (the terminating NUL is left implicit),
`esp_err_t` is `Int`, and every call into the platform (directory reads, the
SPIFFS registration, the I2S driver, the callback) is a parameter of the
embedding, so the theorems hold for every behaviour of the platform.
-/

namespace WavPlayer

/-! ## Platform constants (`esp_err.h`) -/

/-- The type `esp_err_t` of ESP-IDF status codes. -/
abbrev esp_err_t := Int

/-- Status `ESP_OK` of `esp_err.h`. -/
def ESP_OK : esp_err_t := 0

/-- Status `ESP_FAIL` of `esp_err.h`. -/
def ESP_FAIL : esp_err_t := -1

/-- Status `ESP_ERR_INVALID_ARG` of `esp_err.h` (0x102). -/
def ESP_ERR_INVALID_ARG : esp_err_t := 258

/-- Status `ESP_ERR_INVALID_STATE` of `esp_err.h` (0x103). -/
def ESP_ERR_INVALID_STATE : esp_err_t := 259

/-! ## C string helpers used by `file_manager.c` -/

/-- A C string, without its terminating NUL. -/
abbrev CStr := List Char

/-- The libc function `strlen`. -/
def strlen (s : CStr) : Nat := s.length

/-- Tests whether `needle` starts `hay`, character by character. -/
def startsWith : CStr → CStr → Bool
  | _, [] => true
  | [], _ :: _ => false
  | h :: hs, n :: ns => h == n && startsWith hs ns

/-- The libc function `strstr`: the offset of the first occurrence of `needle`
in `hay`, or `none` for the NULL result. -/
def strstr : CStr → CStr → Option Nat
  | [], needle => if startsWith [] needle then some 0 else none
  | h :: hs, needle =>
    if startsWith (h :: hs) needle then some 0
    else (strstr hs needle).map (· + 1)

/-- The libc function `snprintf(buf, size, "/storage/%s", name)`: the
characters stored in `buf` before the terminating NUL, at most `size - 1` of
the formatted text. -/
def snprintf_storage (size : Nat) (name : CStr) : CStr :=
  ("/storage/".toList ++ name).take (size - 1)

/-! ## `file_manager_process_wav_files` -/

/-- A directory entry as `readdir` returns it; only `d_name` is read. -/
structure dirent where
  d_name : CStr
  deriving DecidableEq, Repr

/-- The callback type `esp_err_t (*)(const char *filepath, void *user_data)`.
The state `σ` stands for everything the callback can read and change
(`user_data` and the world behind it). -/
abbrev Callback (σ : Type) := CStr → σ → esp_err_t × σ

/-- How a call of `file_manager_process_wav_files` ends. -/
inductive Outcome where
  /-- The function returned this status. -/
  | returned (status : esp_err_t)
  /-- The function called through a NULL function pointer and never returned. -/
  | nullCall
  deriving DecidableEq, Repr

/-- What one call of `file_manager_process_wav_files` did. -/
structure Run (σ : Type) where
  /-- How the call ended. -/
  outcome : Outcome
  /-- The callback invocations in order: the path passed and the status it
  returned. -/
  calls : List (CStr × esp_err_t)
  /-- The number of `vTaskDelay(pdMS_TO_TICKS(500))` pauses taken. -/
  pauses : Nat
  /-- The callback state when the call ended. -/
  user : σ

/-- The size of the stack buffer `char filepath[300]`. -/
def FILEPATH_SIZE : Nat := 300

/-- The `while ((ent = readdir(dir)) != NULL)` loop of
`file_manager_process_wav_files`, followed by `closedir(dir); return ret;`.
The list is the sequence of entries the remaining `readdir` calls return, and
`ret` is the current value of the local variable `ret`. The two `strlen`
results are lengths of strings held in memory, so their `size_t` sum does not
wrap and is taken in `Nat`. -/
def process_loop {σ : Type} (callback : Option (Callback σ)) :
    List dirent → esp_err_t → σ → Run σ
  | [], ret, s => ⟨Outcome.returned ret, [], 0, s⟩
  | ent :: rest, ret, s =>
    if (strstr ent.d_name ".wav".toList).isSome then
      if strlen ent.d_name + strlen "/storage/".toList ≥ FILEPATH_SIZE then
        process_loop callback rest ret s
      else
        let filepath := snprintf_storage FILEPATH_SIZE ent.d_name
        match callback with
        | none => ⟨Outcome.nullCall, [], 0, s⟩
        | some cb =>
          let r := cb filepath s
          if r.1 ≠ ESP_OK then
            ⟨Outcome.returned r.1, [(filepath, r.1)], 0, r.2⟩
          else
            let run := process_loop callback rest r.1 r.2
            ⟨run.outcome, (filepath, r.1) :: run.calls, run.pauses + 1, run.user⟩
    else
      process_loop callback rest ret s

/-- The function `file_manager_process_wav_files`. The argument `dir` is the
result of `opendir("/storage")`: `none` when it returns NULL, otherwise the
sequence of entries the successive `readdir` calls return. -/
def file_manager_process_wav_files {σ : Type} (dir : Option (List dirent))
    (callback : Option (Callback σ)) (user_data : σ) : Run σ :=
  match dir with
  | none => ⟨Outcome.returned ESP_FAIL, [], 0, user_data⟩
  | some entries => process_loop callback entries ESP_OK user_data

/-- The paths passed to the callback, in order. -/
def Run.paths {σ : Type} (run : Run σ) : List CStr := run.calls.map Prod.fst

/-- A directory entry named by a string literal. -/
def entry (name : String) : dirent := ⟨name.toList⟩

/-- A callback that counts its invocations and always succeeds. -/
def okCallback : Callback Nat := fun _ n => (ESP_OK, n + 1)

/-- A callback that counts its invocations and fails with `ESP_FAIL` on the
invocation number `k` (counted from zero). -/
def failAt (k : Nat) : Callback Nat :=
  fun _ n => (if n = k then ESP_FAIL else ESP_OK, n + 1)

/-- An entry with the marker whose name has 304 characters, so that its
path does not fit the buffer. -/
def longEntry : dirent := ⟨List.replicate 300 'x' ++ ".wav".toList⟩

/-! ## Mount state: `file_manager_init`, `file_manager_get_info`, `file_manager_deinit` -/

/-- The structure `file_manager_config_t`; a NULL `partition_label` is `none`. -/
structure file_manager_config_t where
  base_path : CStr
  partition_label : Option CStr
  max_files : Nat
  format_if_mount_failed : Bool
  deriving DecidableEq, Repr

/-- The SPIFFS calls of the platform the module uses, over a platform state
`π`. The out-parameters of `esp_spiffs_info` are part of its result. -/
structure Spiffs (π : Type) where
  esp_vfs_spiffs_register : file_manager_config_t → π → esp_err_t × π
  esp_vfs_spiffs_unregister : CStr → π → π
  esp_spiffs_info : CStr → π → esp_err_t × Nat × Nat

/-- The module state: the static variable `current_partition_label` (NULL is
`none`) and the platform behind it. -/
structure FmState (π : Type) where
  current_partition_label : Option CStr
  platform : π

/-- The state at program start: `current_partition_label = NULL`. -/
def FmState.initial {π : Type} (p : π) : FmState π := ⟨none, p⟩

/-- The function `file_manager_init`; a NULL `config` is `none`. -/
def file_manager_init {π : Type} (P : Spiffs π) (config : Option file_manager_config_t)
    (st : FmState π) : esp_err_t × FmState π :=
  match config with
  | none => (ESP_ERR_INVALID_ARG, st)
  | some cfg =>
    let r := P.esp_vfs_spiffs_register cfg st.platform
    if r.1 ≠ ESP_OK then (r.1, ⟨st.current_partition_label, r.2⟩)
    else (ESP_OK, ⟨cfg.partition_label, r.2⟩)

/-- The function `file_manager_get_info`: the status returned and the values
of `*total_bytes` and `*used_bytes` afterwards (`total` and `used` are their
values before the call). -/
def file_manager_get_info {π : Type} (P : Spiffs π) (st : FmState π)
    (total used : Nat) : esp_err_t × Nat × Nat :=
  match st.current_partition_label with
  | none => (ESP_ERR_INVALID_STATE, total, used)
  | some label => P.esp_spiffs_info label st.platform

/-- The function `file_manager_deinit`. -/
def file_manager_deinit {π : Type} (P : Spiffs π) (st : FmState π) : FmState π :=
  match st.current_partition_label with
  | some label => ⟨none, P.esp_vfs_spiffs_unregister label st.platform⟩
  | none => st

/-- A call a client makes on the mount interface. -/
inductive FmOp where
  | init (config : Option file_manager_config_t)
  | deinit
  | get_info
  deriving DecidableEq, Repr

/-- Runs a sequence of client calls. The flag carried along is the condition
of the header comment, kept from the statuses the calls returned: it is true
when no `file_manager_init` has returned `ESP_OK` since the start or since the
last `file_manager_deinit`. -/
def replay {π : Type} (P : Spiffs π) : List FmOp → FmState π → Bool → FmState π × Bool
  | [], st, unmounted => (st, unmounted)
  | FmOp.init config :: ops, st, unmounted =>
    let r := file_manager_init P config st
    replay P ops r.2 (if r.1 = ESP_OK then false else unmounted)
  | FmOp.deinit :: ops, st, _ => replay P ops (file_manager_deinit P st) true
  | FmOp.get_info :: ops, st, unmounted => replay P ops st unmounted

/-- A platform on which every mount succeeds and the partition has 100 bytes,
40 of them used. -/
def toySpiffs : Spiffs Unit :=
  ⟨fun _ _ => (ESP_OK, ()), fun _ _ => (), fun _ _ => (ESP_OK, 100, 40)⟩

/-- The configuration `fm_config` of `app_main`. -/
def fm_config : file_manager_config_t :=
  ⟨"/storage".toList, some "storage".toList, 5, true⟩

/-! ## `init_i2s` -/

/-- The I2S driver calls the repository makes, with the channel handle they
are applied to. -/
inductive I2sCall where
  | i2s_new_channel
  | i2s_channel_init_std_mode (handle : Nat)
  | i2s_channel_enable (handle : Nat)
  | i2s_channel_disable (handle : Nat)
  | i2s_del_channel (handle : Nat)
  deriving DecidableEq, Repr

/-- The I2S driver of the platform, over a hardware state `σ`. The call
`i2s_new_channel` also yields the value of `*tx_handle` after it. -/
structure I2sDriver (σ : Type) where
  i2s_new_channel : σ → esp_err_t × Nat × σ
  i2s_channel_init_std_mode : Nat → σ → esp_err_t × σ
  i2s_channel_enable : Nat → σ → esp_err_t × σ

/-- What one call of `init_i2s` did. -/
structure I2sRun (σ : Type) where
  /-- The status returned. -/
  ret : esp_err_t
  /-- The driver calls made, in order, each with the status it returned. -/
  log : List (I2sCall × esp_err_t)
  /-- The hardware state afterwards. -/
  hw : σ

/-- The function `init_i2s`. Each `ESP_RETURN_ON_ERROR(x, ...)` evaluates `x`
once and returns its status when it is not `ESP_OK`. The structures `chan_cfg`
and `std_cfg` are constants of the build and belong to the driver's
behaviour `drv`. -/
def init_i2s {σ : Type} (drv : I2sDriver σ) (hw : σ) : I2sRun σ :=
  let r1 := drv.i2s_new_channel hw
  let tx_handle := r1.2.1
  if r1.1 ≠ ESP_OK then ⟨r1.1, [(I2sCall.i2s_new_channel, r1.1)], r1.2.2⟩
  else
    let r2 := drv.i2s_channel_init_std_mode tx_handle r1.2.2
    if r2.1 ≠ ESP_OK then
      ⟨r2.1, [(I2sCall.i2s_new_channel, r1.1),
              (I2sCall.i2s_channel_init_std_mode tx_handle, r2.1)], r2.2⟩
    else
      let r3 := drv.i2s_channel_enable tx_handle r2.2
      if r3.1 ≠ ESP_OK then
        ⟨r3.1, [(I2sCall.i2s_new_channel, r1.1),
                (I2sCall.i2s_channel_init_std_mode tx_handle, r2.1),
                (I2sCall.i2s_channel_enable tx_handle, r3.1)], r3.2⟩
      else
        ⟨ESP_OK, [(I2sCall.i2s_new_channel, r1.1),
                  (I2sCall.i2s_channel_init_std_mode tx_handle, r2.1),
                  (I2sCall.i2s_channel_enable tx_handle, r3.1)], r3.2⟩

/-- Whether a channel is allocated after the logged driver calls, given
whether one was before: a successful `i2s_new_channel` allocates it and a
successful `i2s_del_channel` releases it. -/
def channelAllocated : List (I2sCall × esp_err_t) → Bool → Bool
  | [], live => live
  | (I2sCall.i2s_new_channel, r) :: rest, live =>
    channelAllocated rest (if r = ESP_OK then true else live)
  | (I2sCall.i2s_del_channel _, r) :: rest, live =>
    channelAllocated rest (if r = ESP_OK then false else live)
  | _ :: rest, live => channelAllocated rest live

/-- Whether a logged call is a release, `i2s_del_channel`. -/
def I2sCall.isRelease : I2sCall → Bool
  | I2sCall.i2s_del_channel _ => true
  | _ => false

/-- A driver whose three calls return the given statuses; the handle is 7. -/
def scriptedDriver (r1 r2 r3 : esp_err_t) : I2sDriver Unit :=
  ⟨fun _ => (r1, 7, ()), fun _ _ => (r2, ()), fun _ _ => (r3, ())⟩

/-! ## The WAV player (`wav_player.h`) and the driver callbacks of `main` -/

/-- The status kinds of the specification for `play`. A status of the sink is
carried through unchanged. -/
inductive PlayStatus where
  | success
  | notFoundError
  | ioError
  | formatError
  | unsupportedFormatError
  | sinkError (status : esp_err_t)
  deriving DecidableEq, Repr

/-- The sink type `esp_err_t (*)(const void *src, size_t size, void *user_data)`
of `audio_write_cb`; the bytes `src[0 .. size)` are a list. -/
abbrev Sink (σ : Type) := List Nat → σ → esp_err_t × σ

/-- What one call of `wav_player_play_file` did. -/
structure PlayRun (σ : Type) where
  /-- The status returned. -/
  status : PlayStatus
  /-- The byte blocks passed to the sink, in order. -/
  writes : List (List Nat)
  /-- The sink state afterwards. -/
  user : σ

/-- The bytes of an ASCII tag such as "RIFF". -/
def tagBytes (tag : String) : List Nat := tag.toList.map Char.toNat

/-- A little-endian unsigned 16-bit field at the head of `bs`. -/
def readU16 (bs : List Nat) : Nat :=
  bs.getD 0 0 + 256 * bs.getD 1 0

/-- A little-endian unsigned 32-bit field at the head of `bs`. -/
def readU32 (bs : List Nat) : Nat :=
  bs.getD 0 0 + 256 * bs.getD 1 0 + 65536 * bs.getD 2 0 + 16777216 * bs.getD 3 0

/-- The length of a sub-chunk payload with its padding to an even length. -/
def paddedLength (len : Nat) : Nat := len + len % 2

/-- The fields of the format sub-chunk the player keeps. -/
structure WavFormat where
  audioFormat : Nat
  channels : Nat
  sampleRate : Nat
  bitsPerSample : Nat
  deriving DecidableEq, Repr

/-- Modelled from the spec: `wav_player.c` is missing from the sources; this
is step 3 of the algorithm of section 4.3. Scans sub-chunks (4-byte tag,
little-endian 32-bit length, payload padded to an even length) until the
format sub-chunk, and checks the format code (linear PCM, 1) and the sample
width (16). The end of the file before a format sub-chunk is a format error.
Every sub-chunk read takes at least eight bytes, so `fuel` equal to the
number of bytes left is never used up. -/
def scanFormat : Nat → List Nat → Except PlayStatus (WavFormat × List Nat)
  | 0, _ => Except.error PlayStatus.formatError
  | fuel + 1, bs =>
    if bs.length < 8 then Except.error PlayStatus.formatError
    else
      let len := readU32 (bs.drop 4)
      let body := bs.drop 8
      if bs.take 4 = tagBytes "fmt " then
        if len < 16 ∨ body.length < 16 then Except.error PlayStatus.formatError
        else
          let fmt : WavFormat :=
            ⟨readU16 body, readU16 (body.drop 2), readU32 (body.drop 4), readU16 (body.drop 14)⟩
          if fmt.audioFormat ≠ 1 then Except.error PlayStatus.unsupportedFormatError
          else if fmt.bitsPerSample ≠ 16 then Except.error PlayStatus.unsupportedFormatError
          else Except.ok (fmt, body.drop (paddedLength len))
      else scanFormat fuel (body.drop (paddedLength len))

/-- Modelled from the spec: `wav_player.c` is missing from the sources; this
is step 4 of the algorithm of section 4.3. Skips sub-chunks by their declared,
padded length until the data sub-chunk, and yields its declared length and the
bytes from its payload on. The end of the file first is a format error. -/
def scanData : Nat → List Nat → Except PlayStatus (Nat × List Nat)
  | 0, _ => Except.error PlayStatus.formatError
  | fuel + 1, bs =>
    if bs.length < 8 then Except.error PlayStatus.formatError
    else
      let len := readU32 (bs.drop 4)
      let body := bs.drop 8
      if bs.take 4 = tagBytes "data" then Except.ok (len, body)
      else scanData fuel (body.drop (paddedLength len))

/-- Modelled from the spec: `wav_player.c` is missing from the sources; this
is steps 5 and 6 of the algorithm of section 4.3. While declared data bytes
remain, reads up to the scratch-buffer capacity or the remaining length,
whichever is smaller, and forwards the block to the sink. A read that yields
no byte (the end of the file, or a buffer without capacity) is a format error
(truncated data); a sink failure ends the pass with that status. Every round
takes at least one byte, so `fuel` equal to `remaining` is never used up. -/
def streamData {σ : Type} (capacity : Nat) (sink : Sink σ) :
    Nat → Nat → List Nat → σ → PlayRun σ
  | _, 0, _, s => ⟨PlayStatus.success, [], s⟩
  | 0, _ + 1, _, s => ⟨PlayStatus.ioError, [], s⟩
  | fuel + 1, remaining + 1, bs, s =>
    let block := bs.take (min capacity (remaining + 1))
    if block = [] then ⟨PlayStatus.formatError, [], s⟩
    else
      let r := sink block s
      if r.1 ≠ ESP_OK then ⟨PlayStatus.sinkError r.1, [block], r.2⟩
      else
        let run := streamData capacity sink fuel (remaining + 1 - block.length)
          (bs.drop block.length) r.2
        ⟨run.status, block :: run.writes, run.user⟩

/-- Modelled from the spec: `wav_player.c` is missing from the sources; this
is `play(filepath, sink, sinkContext)` of section 4.3. The argument `file` is
the result of opening `filepath`: `none` when it cannot be opened, otherwise
the bytes of the file. The prologue is "RIFF", a 32-bit size and "WAVE"; then
the format sub-chunk is looked for, then the data sub-chunk, then the declared
data bytes are streamed through a scratch buffer of `capacity` bytes. -/
def wav_player_play_file {σ : Type} (capacity : Nat) (file : Option (List Nat))
    (sink : Sink σ) (user_data : σ) : PlayRun σ :=
  match file with
  | none => ⟨PlayStatus.notFoundError, [], user_data⟩
  | some bytes =>
    if bytes.length < 12 ∨ bytes.take 4 ≠ tagBytes "RIFF"
        ∨ (bytes.drop 8).take 4 ≠ tagBytes "WAVE" then
      ⟨PlayStatus.formatError, [], user_data⟩
    else
      match scanFormat bytes.length (bytes.drop 12) with
      | Except.error e => ⟨e, [], user_data⟩
      | Except.ok (_, afterFormat) =>
        match scanData bytes.length afterFormat with
        | Except.error e => ⟨e, [], user_data⟩
        | Except.ok (dataLength, payload) =>
          streamData capacity sink dataLength dataLength payload user_data

/-- The I2S write of the platform, `i2s_channel_write(handle, src, size,
&bytes_written, portMAX_DELAY)`, over a hardware state `σ`: the status and the
hardware state afterwards. -/
abbrev I2sWrite (σ : Type) := Nat → List Nat → σ → esp_err_t × σ

/-- The function `audio_write_cb` of `main`: `user_data` is the channel
handle, and the status of `i2s_channel_write` is returned. -/
def audio_write_cb {σ : Type} (i2s_channel_write : I2sWrite σ) (tx_handle : Nat) : Sink σ :=
  fun src hw => i2s_channel_write tx_handle src hw

/-- The function `play_wav_file` of `main`: plays the file at `filepath`
through `audio_write_cb`. The argument `open_file` is the file system. -/
def play_wav_file {σ : Type} (capacity : Nat) (open_file : CStr → Option (List Nat))
    (i2s_channel_write : I2sWrite σ) (tx_handle : Nat) (filepath : CStr) (hw : σ) :
    PlayRun σ :=
  wav_player_play_file capacity (open_file filepath) (audio_write_cb i2s_channel_write tx_handle) hw

/-! ### The WAV container layout of section 6 -/

/-- A little-endian unsigned 16-bit field. -/
def le16 (n : Nat) : List Nat := [n % 256, n / 256 % 256]

/-- A little-endian unsigned 32-bit field. -/
def le32 (n : Nat) : List Nat :=
  [n % 256, n / 256 % 256, n / 65536 % 256, n / 16777216 % 256]

/-- The pad byte after a payload of odd length. -/
def padBytes (len : Nat) : List Nat := List.replicate (len % 2) 0

/-- A sub-chunk other than the ones the player looks for: tag and payload. -/
structure Chunk where
  tag : List Nat
  body : List Nat
  deriving DecidableEq, Repr

/-- The bytes of a sub-chunk: tag, length, payload, pad. -/
def Chunk.encode (c : Chunk) : List Nat :=
  c.tag ++ le32 c.body.length ++ c.body ++ padBytes c.body.length

/-- The bytes of a sequence of sub-chunks. -/
def encodeChunks : List Chunk → List Nat
  | [] => []
  | c :: cs => c.encode ++ encodeChunks cs

/-- A 16-bit PCM WAV file, by its parts: the size field of the prologue, the
sub-chunks before the format sub-chunk, the format fields, any further bytes
of the format sub-chunk, the sub-chunks between format and data, the PCM
payload, and whatever bytes follow the payload. -/
structure WavFile where
  riffSize : Nat
  before : List Chunk
  channels : Nat
  sampleRate : Nat
  byteRate : Nat
  blockAlign : Nat
  formatExtra : List Nat
  between : List Chunk
  payload : List Nat
  trailer : List Nat
  deriving DecidableEq, Repr

/-- The bytes of the format sub-chunk of a 16-bit PCM file: format code 1 and
16 bits per sample. -/
def WavFile.formatChunk (w : WavFile) : List Nat :=
  tagBytes "fmt " ++ le32 (16 + w.formatExtra.length)
    ++ (le16 1 ++ le16 w.channels ++ le32 w.sampleRate ++ le32 w.byteRate
        ++ le16 w.blockAlign ++ le16 16)
    ++ w.formatExtra ++ padBytes (16 + w.formatExtra.length)

/-- The bytes of the file. -/
def WavFile.encode (w : WavFile) : List Nat :=
  tagBytes "RIFF" ++ le32 w.riffSize ++ tagBytes "WAVE"
    ++ encodeChunks w.before ++ w.formatChunk ++ encodeChunks w.between
    ++ tagBytes "data" ++ le32 w.payload.length ++ w.payload ++ w.trailer

/-- A sub-chunk is well formed when its tag has four bytes and its length fits
the 32-bit field. -/
def Chunk.WellFormed (c : Chunk) : Prop :=
  c.tag.length = 4 ∧ c.body.length < 4294967296

instance (c : Chunk) : Decidable c.WellFormed :=
  inferInstanceAs (Decidable (c.tag.length = 4 ∧ c.body.length < 4294967296))

/-- A valid mono or stereo 16-bit PCM file: one or two channels, lengths that
fit their 32-bit fields, no format sub-chunk before the format sub-chunk and
no data sub-chunk between it and the data sub-chunk. -/
def WavFile.Valid (w : WavFile) : Prop :=
  (w.channels = 1 ∨ w.channels = 2)
    ∧ 16 + w.formatExtra.length < 4294967296
    ∧ w.payload.length < 4294967296
    ∧ (∀ c ∈ w.before, c.WellFormed ∧ c.tag ≠ tagBytes "fmt ")
    ∧ (∀ c ∈ w.between, c.WellFormed ∧ c.tag ≠ tagBytes "data")

instance (w : WavFile) : Decidable w.Valid :=
  inferInstanceAs (Decidable ((w.channels = 1 ∨ w.channels = 2)
    ∧ 16 + w.formatExtra.length < 4294967296
    ∧ w.payload.length < 4294967296
    ∧ (∀ c ∈ w.before, c.WellFormed ∧ c.tag ≠ tagBytes "fmt ")
    ∧ (∀ c ∈ w.between, c.WellFormed ∧ c.tag ≠ tagBytes "data")))

/-- A sink that appends what it is given to a record and always succeeds. -/
def recordingSink : Sink (List Nat) := fun block seen => (ESP_OK, seen ++ block)

/-- A small stereo file: one LIST sub-chunk of three bytes before the format
sub-chunk, five payload bytes, and two bytes after the payload. -/
def sampleWav : WavFile :=
  ⟨36, [⟨tagBytes "LIST", [1, 2, 3]⟩], 2, 44100, 176400, 4, [], [], [10, 11, 12, 13, 14], [99, 98]⟩

/-! ## Lemmas on the string helpers -/

theorem startsWith_iff_leading (hay needle : CStr) :
    startsWith hay needle = true ↔ needle <+: hay := by
  induction hay generalizing needle with
  | nil =>
    cases needle with
    | nil => simp [startsWith]
    | cons n ns => simp [startsWith]
  | cons h hs ih =>
    cases needle with
    | nil => simp [startsWith]
    | cons n ns =>
      simp only [startsWith, Bool.and_eq_true, beq_iff_eq, ih, List.cons_prefix_cons]
      constructor
      · rintro ⟨h1, h2⟩
        exact ⟨h1.symm, h2⟩
      · rintro ⟨h1, h2⟩
        exact ⟨h1.symm, h2⟩

/-- The call `strstr(hay, needle)` is not NULL exactly when `needle` occurs in
`hay` as a contiguous block, at any position. -/
theorem strstr_isSome_iff_occurs (hay needle : CStr) :
    (strstr hay needle).isSome = true ↔ needle <:+: hay := by
  induction hay with
  | nil =>
    cases needle with
    | nil => simp [strstr, startsWith]
    | cons n ns => simp [strstr, startsWith]
  | cons h hs ih =>
    rw [List.infix_cons_iff, ← ih, ← startsWith_iff_leading]
    rw [strstr]
    by_cases hp : startsWith (h :: hs) needle = true
    · simp [hp]
    · simp [hp]

theorem snprintf_storage_fits (name : CStr)
    (hfit : ¬ strlen name + strlen "/storage/".toList ≥ FILEPATH_SIZE) :
    snprintf_storage FILEPATH_SIZE name = "/storage/".toList ++ name := by
  unfold snprintf_storage
  apply List.take_of_length_le
  simp only [strlen, FILEPATH_SIZE, List.length_append] at hfit ⊢
  omega

theorem strlen_storage : strlen "/storage/".toList = 9 := by decide

/-! ## Lemmas on the enumeration loop -/

section Loop

variable {σ : Type}

theorem process_loop_nil (callback : Option (Callback σ)) (ret : esp_err_t) (s : σ) :
    process_loop callback [] ret s = ⟨Outcome.returned ret, [], 0, s⟩ := rfl

/-- An entry without the marker is passed over. -/
theorem process_loop_cons_other (callback : Option (Callback σ)) (ent : dirent)
    (rest : List dirent) (ret : esp_err_t) (s : σ)
    (h : ¬ (strstr ent.d_name ".wav".toList).isSome = true) :
    process_loop callback (ent :: rest) ret s = process_loop callback rest ret s := by
  rw [process_loop, if_neg h]

/-- An entry whose path does not fit the buffer is passed over. -/
theorem process_loop_cons_long (callback : Option (Callback σ)) (ent : dirent)
    (rest : List dirent) (ret : esp_err_t) (s : σ)
    (h : strlen ent.d_name + strlen "/storage/".toList ≥ FILEPATH_SIZE) :
    process_loop callback (ent :: rest) ret s = process_loop callback rest ret s := by
  rw [process_loop]
  split
  · rfl
  · rfl

/-- A matching entry that fits, when the callback fails. -/
theorem process_loop_cons_fail (cb : Callback σ) (ent : dirent)
    (rest : List dirent) (ret : esp_err_t) (s : σ)
    (hm : (strstr ent.d_name ".wav".toList).isSome = true)
    (hfit : ¬ strlen ent.d_name + strlen "/storage/".toList ≥ FILEPATH_SIZE)
    (hr : (cb ("/storage/".toList ++ ent.d_name) s).1 ≠ ESP_OK) :
    process_loop (some cb) (ent :: rest) ret s =
      ⟨Outcome.returned (cb ("/storage/".toList ++ ent.d_name) s).1,
        [("/storage/".toList ++ ent.d_name, (cb ("/storage/".toList ++ ent.d_name) s).1)], 0,
        (cb ("/storage/".toList ++ ent.d_name) s).2⟩ := by
  rw [process_loop, if_pos hm, if_neg hfit]
  simp only [snprintf_storage_fits _ hfit]
  rw [if_pos hr]

/-- A matching entry that fits, when the callback succeeds. -/
theorem process_loop_cons_ok (cb : Callback σ) (ent : dirent)
    (rest : List dirent) (ret : esp_err_t) (s : σ)
    (hm : (strstr ent.d_name ".wav".toList).isSome = true)
    (hfit : ¬ strlen ent.d_name + strlen "/storage/".toList ≥ FILEPATH_SIZE)
    (hr : (cb ("/storage/".toList ++ ent.d_name) s).1 = ESP_OK) :
    process_loop (some cb) (ent :: rest) ret s =
      ⟨(process_loop (some cb) rest ESP_OK (cb ("/storage/".toList ++ ent.d_name) s).2).outcome,
        ("/storage/".toList ++ ent.d_name, ESP_OK) ::
          (process_loop (some cb) rest ESP_OK (cb ("/storage/".toList ++ ent.d_name) s).2).calls,
        (process_loop (some cb) rest ESP_OK (cb ("/storage/".toList ++ ent.d_name) s).2).pauses + 1,
        (process_loop (some cb) rest ESP_OK (cb ("/storage/".toList ++ ent.d_name) s).2).user⟩ := by
  rw [process_loop, if_pos hm, if_neg hfit]
  simp only [snprintf_storage_fits _ hfit]
  rw [if_neg (not_not.mpr hr), hr]

/-- A failing invocation is the last one, and its status is returned. -/
theorem process_loop_failure_last (cb : Callback σ) (entries : List dirent) :
    ∀ (ret : esp_err_t) (s : σ) (pre post : List (CStr × esp_err_t)) (path : CStr)
      (status : esp_err_t),
      (process_loop (some cb) entries ret s).calls = pre ++ (path, status) :: post →
      status ≠ ESP_OK →
      post = [] ∧ (process_loop (some cb) entries ret s).outcome = Outcome.returned status := by
  induction entries with
  | nil =>
    intro ret s pre post path status h _
    simp [process_loop_nil] at h
  | cons ent rest ih =>
    intro ret s pre post path status h hne
    by_cases hm : (strstr ent.d_name ".wav".toList).isSome = true
    · by_cases hfit : strlen ent.d_name + strlen "/storage/".toList ≥ FILEPATH_SIZE
      · rw [process_loop_cons_long _ _ _ _ _ hfit] at h ⊢
        exact ih ret s pre post path status h hne
      · by_cases hr : (cb ("/storage/".toList ++ ent.d_name) s).1 = ESP_OK
        · rw [process_loop_cons_ok cb ent rest ret s hm hfit hr] at h ⊢
          cases pre with
          | nil =>
            simp only [List.nil_append, List.cons.injEq, Prod.mk.injEq] at h
            exact absurd h.1.2.symm hne
          | cons c pre1 =>
            simp only [List.cons_append, List.cons.injEq] at h
            exact ih ESP_OK _ pre1 post path status h.2 hne
        · rw [process_loop_cons_fail cb ent rest ret s hm hfit hr] at h ⊢
          cases pre with
          | nil =>
            simp only [List.nil_append, List.cons.injEq, Prod.mk.injEq] at h
            exact ⟨h.2.symm, by rw [h.1.2]⟩
          | cons c pre1 =>
            simp at h
    · rw [process_loop_cons_other _ _ _ _ _ hm] at h ⊢
      exact ih ret s pre post path status h hne

/-- Once an invocation has failed, entries that follow in the directory make
no difference to the run. -/
theorem process_loop_append_after_failure (cb : Callback σ) (later : List dirent)
    (entries : List dirent) :
    ∀ (ret : esp_err_t) (s : σ),
      (∃ c ∈ (process_loop (some cb) entries ret s).calls, c.2 ≠ ESP_OK) →
      process_loop (some cb) (entries ++ later) ret s = process_loop (some cb) entries ret s := by
  induction entries with
  | nil =>
    intro ret s h
    simp [process_loop_nil] at h
  | cons ent rest ih =>
    intro ret s h
    rw [List.cons_append]
    by_cases hm : (strstr ent.d_name ".wav".toList).isSome = true
    · by_cases hfit : strlen ent.d_name + strlen "/storage/".toList ≥ FILEPATH_SIZE
      · rw [process_loop_cons_long _ _ _ _ _ hfit] at h ⊢
        rw [process_loop_cons_long _ _ _ _ _ hfit]
        exact ih ret s h
      · by_cases hr : (cb ("/storage/".toList ++ ent.d_name) s).1 = ESP_OK
        · rw [process_loop_cons_ok cb ent rest ret s hm hfit hr] at h ⊢
          rw [process_loop_cons_ok cb ent (rest ++ later) ret s hm hfit hr]
          obtain ⟨c, hc, hcne⟩ := h
          simp only [List.mem_cons] at hc
          rcases hc with hc | hc
          · rw [hc] at hcne
            exact absurd rfl hcne
          · rw [ih ESP_OK _ ⟨c, hc, hcne⟩]
        · rw [process_loop_cons_fail cb ent rest ret s hm hfit hr,
            process_loop_cons_fail cb ent (rest ++ later) ret s hm hfit hr]
    · rw [process_loop_cons_other _ _ _ _ _ hm] at h ⊢
      rw [process_loop_cons_other _ _ _ _ _ hm]
      exact ih ret s h

/-- With a callback that never fails, the paths passed are the names with the
marker, in directory order, each after "/storage/", provided they all fit. -/
theorem process_loop_paths_of_ok (cb : Callback σ)
    (hok : ∀ (p : CStr) (s : σ), (cb p s).1 = ESP_OK) (entries : List dirent) :
    ∀ (ret : esp_err_t) (s : σ),
      (∀ e ∈ entries, strlen e.d_name + 9 < 300) →
      (process_loop (some cb) entries ret s).paths
        = (List.filter (fun n => decide (".wav".toList <:+: n))
            (entries.map dirent.d_name)).map (fun n => "/storage/".toList ++ n) := by
  induction entries with
  | nil =>
    intro ret s _
    simp [process_loop_nil, Run.paths]
  | cons ent rest ih =>
    intro ret s hfits
    have hrest : ∀ e ∈ rest, strlen e.d_name + 9 < 300 :=
      fun e he => hfits e (List.mem_cons_of_mem _ he)
    have hfit : ¬ strlen ent.d_name + strlen "/storage/".toList ≥ FILEPATH_SIZE := by
      have := hfits ent (List.mem_cons_self _ _)
      rw [strlen_storage, FILEPATH_SIZE]
      omega
    by_cases hm : (strstr ent.d_name ".wav".toList).isSome = true
    · have hinf : ".wav".toList <:+: ent.d_name := (strstr_isSome_iff_occurs _ _).mp hm
      rw [process_loop_cons_ok cb ent rest ret s hm hfit (hok _ _)]
      have := ih ESP_OK (cb ("/storage/".toList ++ ent.d_name) s).2 hrest
      simp only [Run.paths] at this ⊢
      simp only [List.map_cons, List.filter_cons, hinf, decide_True, if_true, this]
    · have hinf : ¬ ".wav".toList <:+: ent.d_name :=
        fun h => hm ((strstr_isSome_iff_occurs _ _).mpr h)
      rw [process_loop_cons_other _ _ _ _ _ hm, ih ret s hrest]
      simp only [List.map_cons, List.filter_cons, hinf, decide_False]
      rfl

/-- An entry whose path does not fit can be taken out of the directory without
changing the run. -/
theorem process_loop_skip_long (cb : Callback σ) (ent : dirent) (back : List dirent)
    (hlong : strlen ent.d_name + strlen "/storage/".toList ≥ FILEPATH_SIZE)
    (front : List dirent) :
    ∀ (ret : esp_err_t) (s : σ),
      process_loop (some cb) (front ++ ent :: back) ret s
        = process_loop (some cb) (front ++ back) ret s := by
  induction front with
  | nil =>
    intro ret s
    simp only [List.nil_append]
    exact process_loop_cons_long _ _ _ _ _ hlong
  | cons e rest ih =>
    intro ret s
    rw [List.cons_append, List.cons_append]
    by_cases hm : (strstr e.d_name ".wav".toList).isSome = true
    · by_cases hfit : strlen e.d_name + strlen "/storage/".toList ≥ FILEPATH_SIZE
      · rw [process_loop_cons_long _ _ _ _ _ hfit, process_loop_cons_long _ _ _ _ _ hfit]
        exact ih ret s
      · by_cases hr : (cb ("/storage/".toList ++ e.d_name) s).1 = ESP_OK
        · rw [process_loop_cons_ok cb e _ ret s hm hfit hr,
            process_loop_cons_ok cb e _ ret s hm hfit hr, ih]
        · rw [process_loop_cons_fail cb e _ ret s hm hfit hr,
            process_loop_cons_fail cb e _ ret s hm hfit hr]
    · rw [process_loop_cons_other _ _ _ _ _ hm, process_loop_cons_other _ _ _ _ _ hm]
      exact ih ret s

/-- Every path passed to the callback is "/storage/" followed by the whole
name of an entry that has the marker and fits the buffer. -/
theorem process_loop_calls_from_entries (cb : Callback σ) (entries : List dirent) :
    ∀ (ret : esp_err_t) (s : σ),
      ∀ c ∈ (process_loop (some cb) entries ret s).calls,
        ∃ e ∈ entries, c.1 = "/storage/".toList ++ e.d_name
          ∧ strlen e.d_name + 9 < 300 ∧ ".wav".toList <:+: e.d_name := by
  induction entries with
  | nil =>
    intro ret s c hc
    simp [process_loop_nil] at hc
  | cons ent rest ih =>
    intro ret s c hc
    have lift : (∃ e ∈ rest, c.1 = "/storage/".toList ++ e.d_name
          ∧ strlen e.d_name + 9 < 300 ∧ ".wav".toList <:+: e.d_name) →
        ∃ e ∈ ent :: rest, c.1 = "/storage/".toList ++ e.d_name
          ∧ strlen e.d_name + 9 < 300 ∧ ".wav".toList <:+: e.d_name := by
      rintro ⟨e, he, h⟩
      exact ⟨e, List.mem_cons_of_mem _ he, h⟩
    by_cases hm : (strstr ent.d_name ".wav".toList).isSome = true
    · by_cases hfit : strlen ent.d_name + strlen "/storage/".toList ≥ FILEPATH_SIZE
      · rw [process_loop_cons_long _ _ _ _ _ hfit] at hc
        exact lift (ih ret s c hc)
      · have here : ∃ e ∈ ent :: rest,
            ("/storage/".toList ++ ent.d_name) = "/storage/".toList ++ e.d_name
              ∧ strlen e.d_name + 9 < 300 ∧ ".wav".toList <:+: e.d_name := by
          refine ⟨ent, List.mem_cons_self _ _, rfl, ?_, (strstr_isSome_iff_occurs _ _).mp hm⟩
          rw [strlen_storage, FILEPATH_SIZE] at hfit
          omega
        by_cases hr : (cb ("/storage/".toList ++ ent.d_name) s).1 = ESP_OK
        · rw [process_loop_cons_ok cb ent rest ret s hm hfit hr] at hc
          simp only [List.mem_cons] at hc
          rcases hc with hc | hc
          · rw [hc]
            exact here
          · exact lift (ih ESP_OK _ c hc)
        · rw [process_loop_cons_fail cb ent rest ret s hm hfit hr] at hc
          simp only [List.mem_singleton] at hc
          rw [hc]
          exact here
    · rw [process_loop_cons_other _ _ _ _ _ hm] at hc
      exact lift (ih ret s c hc)

/-- When every invocation made succeeded, the loop ends with `ESP_OK`. -/
theorem process_loop_ok_of_calls_ok (cb : Callback σ) (entries : List dirent) :
    ∀ (s : σ),
      (∀ c ∈ (process_loop (some cb) entries ESP_OK s).calls, c.2 = ESP_OK) →
      (process_loop (some cb) entries ESP_OK s).outcome = Outcome.returned ESP_OK := by
  induction entries with
  | nil =>
    intro s _
    rfl
  | cons ent rest ih =>
    intro s h
    by_cases hm : (strstr ent.d_name ".wav".toList).isSome = true
    · by_cases hfit : strlen ent.d_name + strlen "/storage/".toList ≥ FILEPATH_SIZE
      · rw [process_loop_cons_long _ _ _ _ _ hfit] at h ⊢
        exact ih s h
      · by_cases hr : (cb ("/storage/".toList ++ ent.d_name) s).1 = ESP_OK
        · rw [process_loop_cons_ok cb ent rest ESP_OK s hm hfit hr] at h ⊢
          exact ih _ (fun c hc => h c (List.mem_cons_of_mem _ hc))
        · rw [process_loop_cons_fail cb ent rest ESP_OK s hm hfit hr] at h
          exact absurd (h _ (List.mem_singleton_self _)) hr
    · rw [process_loop_cons_other _ _ _ _ _ hm] at h ⊢
      exact ih s h

/-- A directory without a marked name leads to no invocation. -/
theorem process_loop_no_match (callback : Option (Callback σ)) (entries : List dirent) :
    ∀ (ret : esp_err_t) (s : σ),
      (∀ e ∈ entries, ¬ ".wav".toList <:+: e.d_name) →
      process_loop callback entries ret s = ⟨Outcome.returned ret, [], 0, s⟩ := by
  induction entries with
  | nil =>
    intro ret s _
    rfl
  | cons ent rest ih =>
    intro ret s h
    have hm : ¬ (strstr ent.d_name ".wav".toList).isSome = true :=
      fun hm => h ent (List.mem_cons_self _ _) ((strstr_isSome_iff_occurs _ _).mp hm)
    rw [process_loop_cons_other _ _ _ _ _ hm]
    exact ih ret s (fun e he => h e (List.mem_cons_of_mem _ he))

/-- When every invocation made on the entries `front` succeeded, the loop
goes on with the entries that follow, from the state `front` left. -/
theorem process_loop_append_of_ok (cb : Callback σ) (rest : List dirent)
    (front : List dirent) :
    ∀ (s : σ),
      (∀ c ∈ (process_loop (some cb) front ESP_OK s).calls, c.2 = ESP_OK) →
      (process_loop (some cb) (front ++ rest) ESP_OK s).calls
          = (process_loop (some cb) front ESP_OK s).calls
            ++ (process_loop (some cb) rest ESP_OK
                (process_loop (some cb) front ESP_OK s).user).calls
        ∧ (process_loop (some cb) (front ++ rest) ESP_OK s).outcome
          = (process_loop (some cb) rest ESP_OK
              (process_loop (some cb) front ESP_OK s).user).outcome := by
  induction front with
  | nil =>
    intro s _
    simp [process_loop_nil]
  | cons ent more ih =>
    intro s h
    rw [List.cons_append]
    by_cases hm : (strstr ent.d_name ".wav".toList).isSome = true
    · by_cases hfit : strlen ent.d_name + strlen "/storage/".toList ≥ FILEPATH_SIZE
      · rw [process_loop_cons_long _ _ _ _ _ hfit] at h ⊢
        rw [process_loop_cons_long _ _ _ _ _ hfit]
        exact ih s h
      · by_cases hr : (cb ("/storage/".toList ++ ent.d_name) s).1 = ESP_OK
        · rw [process_loop_cons_ok cb ent more ESP_OK s hm hfit hr] at h ⊢
          rw [process_loop_cons_ok cb ent (more ++ rest) ESP_OK s hm hfit hr]
          obtain ⟨h1, h2⟩ := ih (cb ("/storage/".toList ++ ent.d_name) s).2
            (fun c hc => h c (List.mem_cons_of_mem _ hc))
          exact ⟨by simp only [h1, List.cons_append], h2⟩
        · rw [process_loop_cons_fail cb ent more ESP_OK s hm hfit hr] at h
          exact absurd (h _ (List.mem_singleton_self _)) hr
    · rw [process_loop_cons_other _ _ _ _ _ hm] at h ⊢
      rw [process_loop_cons_other _ _ _ _ _ hm]
      exact ih s h

/-- An entry with the marker whose path fits is passed to the callback, with
its whole name after "/storage/", before anything that follows it. -/
theorem process_loop_handles_head (cb : Callback σ) (ent : dirent) (rest : List dirent)
    (ret : esp_err_t) (s : σ)
    (hm : ".wav".toList <:+: ent.d_name) (hfit : strlen ent.d_name + 9 < 300) :
    ∃ tail, (process_loop (some cb) (ent :: rest) ret s).calls
      = ("/storage/".toList ++ ent.d_name, (cb ("/storage/".toList ++ ent.d_name) s).1)
          :: tail := by
  have hm1 : (strstr ent.d_name ".wav".toList).isSome = true :=
    (strstr_isSome_iff_occurs _ _).mpr hm
  have hfit1 : ¬ strlen ent.d_name + strlen "/storage/".toList ≥ FILEPATH_SIZE := by
    rw [strlen_storage, FILEPATH_SIZE]
    omega
  by_cases hr : (cb ("/storage/".toList ++ ent.d_name) s).1 = ESP_OK
  · rw [process_loop_cons_ok cb ent rest ret s hm1 hfit1 hr, hr]
    exact ⟨_, rfl⟩
  · rw [process_loop_cons_fail cb ent rest ret s hm1 hfit1 hr]
    exact ⟨_, rfl⟩

end Loop

/-! ## Lemmas on the WAV container -/

theorem readU32_le32 (n : Nat) (tail : List Nat) (hn : n < 4294967296) :
    readU32 (le32 n ++ tail) = n := by
  simp only [le32, readU32, List.cons_append, List.nil_append, List.getD_cons_zero,
    List.getD_cons_succ]
  omega

theorem readU16_le16 (n : Nat) (tail : List Nat) (hn : n < 65536) :
    readU16 (le16 n ++ tail) = n := by
  simp only [le16, readU16, List.cons_append, List.nil_append, List.getD_cons_zero,
    List.getD_cons_succ]
  omega

theorem le32_length (n : Nat) : (le32 n).length = 4 := rfl

/-- What a reader sees of a sub-chunk header: eight bytes are there, the
first four are the tag, the next four give the length, the rest follows. -/
theorem chunk_header (tag : List Nat) (n : Nat) (tail : List Nat)
    (htag : tag.length = 4) (hn : n < 4294967296) :
    ¬ (tag ++ le32 n ++ tail).length < 8
      ∧ (tag ++ le32 n ++ tail).take 4 = tag
      ∧ readU32 ((tag ++ le32 n ++ tail).drop 4) = n
      ∧ (tag ++ le32 n ++ tail).drop 8 = tail := by
  refine ⟨?_, ?_, ?_, ?_⟩
  · simp only [List.length_append, htag, le32_length]
    omega
  · rw [List.append_assoc]
    exact List.take_left' htag
  · rw [List.append_assoc, List.drop_left' htag]
    exact readU32_le32 n tail hn
  · have h8 : (tag ++ le32 n).length = 8 := by
      simp only [List.length_append, htag, le32_length]
    exact List.drop_left' h8

theorem drop_padded (body rest : List Nat) :
    (body ++ padBytes body.length ++ rest).drop (paddedLength body.length) = rest := by
  apply List.drop_left'
  simp [padBytes, paddedLength]

theorem scanFormat_skip (fuel : Nat) (c : Chunk) (rest : List Nat)
    (hwf : c.WellFormed) (hne : c.tag ≠ tagBytes "fmt ") :
    scanFormat (fuel + 1) (c.encode ++ rest) = scanFormat fuel rest := by
  have heq : c.encode ++ rest
      = c.tag ++ le32 c.body.length ++ (c.body ++ padBytes c.body.length ++ rest) := by
    simp only [Chunk.encode, List.append_assoc]
  obtain ⟨v1, v2, v3, v4⟩ := chunk_header c.tag c.body.length
    (c.body ++ padBytes c.body.length ++ rest) hwf.1 hwf.2
  rw [heq]
  simp only [scanFormat, v2, v3, v4, if_neg v1, if_neg hne, drop_padded]

theorem scanData_skip (fuel : Nat) (c : Chunk) (rest : List Nat)
    (hwf : c.WellFormed) (hne : c.tag ≠ tagBytes "data") :
    scanData (fuel + 1) (c.encode ++ rest) = scanData fuel rest := by
  have heq : c.encode ++ rest
      = c.tag ++ le32 c.body.length ++ (c.body ++ padBytes c.body.length ++ rest) := by
    simp only [Chunk.encode, List.append_assoc]
  obtain ⟨v1, v2, v3, v4⟩ := chunk_header c.tag c.body.length
    (c.body ++ padBytes c.body.length ++ rest) hwf.1 hwf.2
  rw [heq]
  simp only [scanData, v2, v3, v4, if_neg v1, if_neg hne, drop_padded]

theorem scanData_found (fuel : Nat) (n : Nat) (tail : List Nat) (hn : n < 4294967296) :
    scanData (fuel + 1) (tagBytes "data" ++ le32 n ++ tail) = Except.ok (n, tail) := by
  obtain ⟨v1, v2, v3, v4⟩ := chunk_header (tagBytes "data") n tail rfl hn
  simp only [scanData, v2, v3, v4, if_neg v1, if_true]

/-- The scan for the data sub-chunk passes the sub-chunks in between and
yields the declared length and the bytes from the payload on. -/
theorem scanData_chunks (n : Nat) (tail : List Nat) (hn : n < 4294967296)
    (between : List Chunk) :
    ∀ (fuel : Nat), between.length < fuel →
      (∀ c ∈ between, c.WellFormed ∧ c.tag ≠ tagBytes "data") →
      scanData fuel (encodeChunks between ++ (tagBytes "data" ++ le32 n ++ tail))
        = Except.ok (n, tail) := by
  induction between with
  | nil =>
    intro fuel hfuel _
    obtain ⟨f, rfl⟩ : ∃ f, fuel = f + 1 := ⟨fuel - 1, by simp at hfuel; omega⟩
    simp only [encodeChunks, List.nil_append]
    exact scanData_found f n tail hn
  | cons c cs ih =>
    intro fuel hfuel hall
    obtain ⟨f, rfl⟩ : ∃ f, fuel = f + 1 := ⟨fuel - 1, by simp at hfuel; omega⟩
    have hc := hall c (List.mem_cons_self _ _)
    simp only [encodeChunks, List.append_assoc]
    rw [scanData_skip f c _ hc.1 hc.2]
    have := ih f (by simp at hfuel; omega) (fun d hd => hall d (List.mem_cons_of_mem _ hd))
    simpa only [List.append_assoc] using this

theorem scanFormat_found (fuel : Nat) (w : WavFile) (rest : List Nat)
    (hlen : 16 + w.formatExtra.length < 4294967296) :
    ∃ fmt, scanFormat (fuel + 1) (w.formatChunk ++ rest) = Except.ok (fmt, rest) := by
  have heq : w.formatChunk ++ rest
      = tagBytes "fmt " ++ le32 (16 + w.formatExtra.length)
        ++ ((le16 1 ++ le16 w.channels ++ le32 w.sampleRate ++ le32 w.byteRate
              ++ le16 w.blockAlign ++ le16 16 ++ w.formatExtra)
            ++ padBytes (16 + w.formatExtra.length) ++ rest) := by
    simp only [WavFile.formatChunk, List.append_assoc]
  have hbody : (le16 1 ++ le16 w.channels ++ le32 w.sampleRate ++ le32 w.byteRate
      ++ le16 w.blockAlign ++ le16 16 ++ w.formatExtra).length = 16 + w.formatExtra.length := by
    simp only [List.length_append, le32_length, le16, List.length_cons, List.length_nil]
  obtain ⟨v1, v2, v3, v4⟩ := chunk_header (tagBytes "fmt ") (16 + w.formatExtra.length)
    ((le16 1 ++ le16 w.channels ++ le32 w.sampleRate ++ le32 w.byteRate
        ++ le16 w.blockAlign ++ le16 16 ++ w.formatExtra)
      ++ padBytes (16 + w.formatExtra.length) ++ rest) rfl hlen
  have hdrop := drop_padded (le16 1 ++ le16 w.channels ++ le32 w.sampleRate ++ le32 w.byteRate
      ++ le16 w.blockAlign ++ le16 16 ++ w.formatExtra) rest
  rw [hbody] at hdrop
  rw [heq]
  simp only [scanFormat, v2, v3, v4, if_neg v1, if_true, hdrop]
  have hshort : ¬ (16 + w.formatExtra.length < 16
      ∨ ((le16 1 ++ le16 w.channels ++ le32 w.sampleRate ++ le32 w.byteRate
            ++ le16 w.blockAlign ++ le16 16 ++ w.formatExtra)
          ++ padBytes (16 + w.formatExtra.length) ++ rest).length < 16) := by
    rw [List.length_append, List.length_append, hbody]
    omega
  rw [if_neg hshort]
  have hfmt : readU16 ((le16 1 ++ le16 w.channels ++ le32 w.sampleRate ++ le32 w.byteRate
            ++ le16 w.blockAlign ++ le16 16 ++ w.formatExtra)
          ++ padBytes (16 + w.formatExtra.length) ++ rest) = 1 := by
    simp only [List.append_assoc]
    exact readU16_le16 1 _ (by omega)
  have hbits : readU16 (((le16 1 ++ le16 w.channels ++ le32 w.sampleRate ++ le32 w.byteRate
            ++ le16 w.blockAlign ++ le16 16 ++ w.formatExtra)
          ++ padBytes (16 + w.formatExtra.length) ++ rest).drop 14) = 16 := by
    have h14 : (le16 1 ++ (le16 w.channels ++ (le32 w.sampleRate ++ (le32 w.byteRate
        ++ le16 w.blockAlign)))).length = 14 := rfl
    have hre : ((le16 1 ++ le16 w.channels ++ le32 w.sampleRate ++ le32 w.byteRate
            ++ le16 w.blockAlign ++ le16 16 ++ w.formatExtra)
          ++ padBytes (16 + w.formatExtra.length) ++ rest)
        = (le16 1 ++ (le16 w.channels ++ (le32 w.sampleRate ++ (le32 w.byteRate
            ++ le16 w.blockAlign))))
          ++ (le16 16 ++ (w.formatExtra ++ (padBytes (16 + w.formatExtra.length) ++ rest))) := by
      simp only [List.append_assoc]
    rw [hre, List.drop_left' h14]
    exact readU16_le16 16 _ (by omega)
  simp only [hfmt, hbits, ne_eq, not_true_eq_false, if_false]
  exact ⟨_, rfl⟩

/-- The scan for the format sub-chunk passes the sub-chunks before it,
accepts the format sub-chunk of a 16-bit PCM file and leaves the reader right
after it. -/
theorem scanFormat_chunks (w : WavFile) (rest : List Nat)
    (hlen : 16 + w.formatExtra.length < 4294967296) (before : List Chunk) :
    ∀ (fuel : Nat), before.length < fuel →
      (∀ c ∈ before, c.WellFormed ∧ c.tag ≠ tagBytes "fmt ") →
      ∃ fmt, scanFormat fuel (encodeChunks before ++ (w.formatChunk ++ rest))
        = Except.ok (fmt, rest) := by
  induction before with
  | nil =>
    intro fuel hfuel _
    obtain ⟨f, rfl⟩ : ∃ f, fuel = f + 1 := ⟨fuel - 1, by simp at hfuel; omega⟩
    simp only [encodeChunks, List.nil_append]
    exact scanFormat_found f w rest hlen
  | cons c cs ih =>
    intro fuel hfuel hall
    obtain ⟨f, rfl⟩ : ∃ f, fuel = f + 1 := ⟨fuel - 1, by simp at hfuel; omega⟩
    have hc := hall c (List.mem_cons_self _ _)
    simp only [encodeChunks, List.append_assoc]
    rw [scanFormat_skip f c _ hc.1 hc.2]
    exact ih f (by simp at hfuel; omega) (fun d hd => hall d (List.mem_cons_of_mem _ hd))

theorem encodeChunks_length (cs : List Chunk) : cs.length ≤ (encodeChunks cs).length := by
  induction cs with
  | nil => simp [encodeChunks]
  | cons c cs ih =>
    simp only [encodeChunks, List.length_cons, List.length_append, Chunk.encode, le32_length]
    omega

/-- With a scratch buffer that holds at least one byte, a sink that never
fails and `remaining` bytes present, streaming succeeds and forwards exactly
the next `remaining` bytes, in blocks of one byte up to the capacity. -/
theorem streamData_delivers {σ : Type} (capacity : Nat) (sink : Sink σ)
    (hcap : 0 < capacity) (hok : ∀ (b : List Nat) (s : σ), (sink b s).1 = ESP_OK)
    (fuel : Nat) :
    ∀ (remaining : Nat) (bs : List Nat) (s : σ),
      remaining ≤ fuel → remaining ≤ bs.length →
      (streamData capacity sink fuel remaining bs s).status = PlayStatus.success
        ∧ (streamData capacity sink fuel remaining bs s).writes.flatten = bs.take remaining
        ∧ (∀ b ∈ (streamData capacity sink fuel remaining bs s).writes,
            0 < b.length ∧ b.length ≤ capacity)
        ∧ ((streamData capacity sink fuel remaining bs s).writes.map List.length).sum
            = remaining := by
  induction fuel with
  | zero =>
    intro remaining bs s hfuel _
    obtain rfl : remaining = 0 := by omega
    simp [streamData]
  | succ f ih =>
    intro remaining bs s hfuel hbytes
    cases remaining with
    | zero => simp [streamData]
    | succ r =>
      have hlen : (bs.take (min capacity (r + 1))).length = min capacity (r + 1) := by
        rw [List.length_take]
        omega
      have hne : bs.take (min capacity (r + 1)) ≠ [] := by
        intro h
        rw [h] at hlen
        simp only [List.length_nil] at hlen
        omega
      have hdroplen : r + 1 - min capacity (r + 1) ≤ (bs.drop (min capacity (r + 1))).length := by
        rw [List.length_drop]
        omega
      obtain ⟨h1, h2, h3, h4⟩ := ih (r + 1 - min capacity (r + 1))
        (bs.drop (min capacity (r + 1))) (sink (bs.take (min capacity (r + 1))) s).2
        (by omega) hdroplen
      simp only [streamData]
      rw [if_neg hne, if_neg (not_not.mpr (hok _ _)), hlen]
      refine ⟨h1, ?_, ?_, ?_⟩
      · simp only [List.flatten_cons, h2]
        have hsplit : r + 1 = min capacity (r + 1) + (r + 1 - min capacity (r + 1)) := by omega
        conv_rhs => rw [hsplit, List.take_add]
      · intro b hb
        simp only [List.mem_cons] at hb
        rcases hb with hb | hb
        · rw [hb, hlen]
          omega
        · exact h3 b hb
      · simp only [List.map_cons, List.sum_cons, h4, hlen]
        omega

/-- The reader's view of the prologue of an encoded file. -/
theorem encode_prologue (w : WavFile) :
    ¬ (w.encode.length < 12 ∨ w.encode.take 4 ≠ tagBytes "RIFF"
        ∨ (w.encode.drop 8).take 4 ≠ tagBytes "WAVE")
      ∧ w.encode.drop 12
        = encodeChunks w.before ++ (w.formatChunk ++ (encodeChunks w.between
            ++ (tagBytes "data" ++ le32 w.payload.length ++ (w.payload ++ w.trailer)))) := by
  have heq : w.encode
      = tagBytes "RIFF" ++ (le32 w.riffSize ++ (tagBytes "WAVE"
          ++ (encodeChunks w.before ++ (w.formatChunk ++ (encodeChunks w.between
            ++ (tagBytes "data" ++ le32 w.payload.length ++ (w.payload ++ w.trailer))))))) := by
    simp only [WavFile.encode, List.append_assoc]
  have h4 : (tagBytes "RIFF").length = 4 := rfl
  have h8 : (tagBytes "RIFF" ++ le32 w.riffSize).length = 8 := rfl
  have h12 : (tagBytes "RIFF" ++ le32 w.riffSize ++ tagBytes "WAVE").length = 12 := rfl
  have hw : (tagBytes "WAVE").length = 4 := rfl
  refine ⟨?_, ?_⟩
  · rw [heq]
    intro h
    rcases h with h | h | h
    · simp only [List.length_append, h4, hw, le32_length] at h
      omega
    · exact h (List.take_left' h4)
    · rw [← List.append_assoc, List.drop_left' h8] at h
      exact h (List.take_left' hw)
  · rw [heq, ← List.append_assoc, ← List.append_assoc]
    exact List.drop_left' h12

/-- Every sub-chunk takes at least one byte, so the sub-chunks of a file are
fewer than its bytes. -/
theorem encode_fuel (w : WavFile) :
    w.before.length < w.encode.length ∧ w.between.length < w.encode.length := by
  have hb := encodeChunks_length w.before
  have hm := encodeChunks_length w.between
  have h4 : (tagBytes "RIFF").length = 4 := rfl
  simp only [WavFile.encode, List.length_append, h4, le32_length]
  omega

/-! ## Properties of `file_manager_process_wav_files` -/

/-- C1: when an invocation of the handler returns a status other than
`ESP_OK`, it is the last invocation (`post = []`), the function returns that
very status, and whatever entries the directory holds after that point make no
difference to the run: they are never read, let alone handled. -/
theorem process_wav_files_stops_at_failure {σ : Type} (cb : Callback σ) (user_data : σ)
    (entries later : List dirent) (pre post : List (CStr × esp_err_t)) (path : CStr)
    (status : esp_err_t)
    (hcalls : (file_manager_process_wav_files (some entries) (some cb) user_data).calls
      = pre ++ (path, status) :: post)
    (hfail : status ≠ ESP_OK) :
    post = []
      ∧ (file_manager_process_wav_files (some entries) (some cb) user_data).outcome
          = Outcome.returned status
      ∧ file_manager_process_wav_files (some (entries ++ later)) (some cb) user_data
          = file_manager_process_wav_files (some entries) (some cb) user_data := by
  simp only [file_manager_process_wav_files] at hcalls ⊢
  obtain ⟨h1, h2⟩ := process_loop_failure_last cb entries ESP_OK user_data pre post path status
    hcalls hfail
  refine ⟨h1, h2, ?_⟩
  apply process_loop_append_after_failure
  refine ⟨(path, status), ?_, hfail⟩
  rw [hcalls]
  simp

/-- Three matching files, the handler failing on the second: the handler is
invoked on the first two only and the second status is returned. -/
theorem process_wav_files_stops_at_failure_witness :
    (file_manager_process_wav_files (some [entry "a.wav", entry "b.wav"]) (some (failAt 1)) 0).calls
        = [("/storage/a.wav".toList, ESP_OK)] ++ ("/storage/b.wav".toList, ESP_FAIL) :: []
      ∧ ESP_FAIL ≠ ESP_OK
      ∧ (([] : List (CStr × esp_err_t)) = []
        ∧ (file_manager_process_wav_files (some [entry "a.wav", entry "b.wav"])
            (some (failAt 1)) 0).outcome = Outcome.returned ESP_FAIL
        ∧ file_manager_process_wav_files
            (some ([entry "a.wav", entry "b.wav"] ++ [entry "c.wav"])) (some (failAt 1)) 0
          = file_manager_process_wav_files (some [entry "a.wav", entry "b.wav"])
            (some (failAt 1)) 0) :=
  ⟨by decide, by decide,
    process_wav_files_stops_at_failure (failAt 1) 0 [entry "a.wav", entry "b.wav"]
      [entry "c.wav"] [("/storage/a.wav".toList, ESP_OK)] [] "/storage/b.wav".toList ESP_FAIL
      (by decide) (by decide)⟩

/-- C2: with names that fit the path bound and a handler that always returns
`ESP_OK`, the paths passed to the handler are the directory-read sequence, in
the same order, restricted to the names that contain ".wav" as a contiguous
block at any position, each prefixed with "/storage/"; every handled name
contains "wav" in that exact case. -/
theorem process_wav_files_paths {σ : Type} (cb : Callback σ) (user_data : σ)
    (entries : List dirent)
    (hfit : ∀ e ∈ entries, strlen e.d_name + 9 < 300)
    (hok : ∀ (p : CStr) (s : σ), (cb p s).1 = ESP_OK) :
    (file_manager_process_wav_files (some entries) (some cb) user_data).paths
        = (List.filter (fun n => decide (".wav".toList <:+: n))
            (entries.map dirent.d_name)).map (fun n => "/storage/".toList ++ n)
      ∧ ∀ p ∈ (file_manager_process_wav_files (some entries) (some cb) user_data).paths,
          ∃ name, p = "/storage/".toList ++ name ∧ "wav".toList <:+: name := by
  have hpaths := process_loop_paths_of_ok cb hok entries ESP_OK user_data hfit
  simp only [file_manager_process_wav_files]
  refine ⟨hpaths, ?_⟩
  intro p hp
  rw [hpaths] at hp
  obtain ⟨name, hname, rfl⟩ := List.mem_map.mp hp
  refine ⟨name, rfl, ?_⟩
  have hinf : ".wav".toList <:+: name := by
    have := (List.mem_filter.mp hname).2
    exact of_decide_eq_true this
  exact List.IsInfix.trans (List.IsSuffix.isInfix ⟨['.'], rfl⟩) hinf

/-- The listing a.wav, b.txt, c.WAV: the handler is invoked once, with
"/storage/a.wav". -/
theorem process_wav_files_paths_witness :
    (∀ e ∈ [entry "a.wav", entry "b.txt", entry "c.WAV"], strlen e.d_name + 9 < 300)
      ∧ (∀ (p : CStr) (s : Nat), (okCallback p s).1 = ESP_OK)
      ∧ (file_manager_process_wav_files (some [entry "a.wav", entry "b.txt", entry "c.WAV"])
          (some okCallback) 0).paths = ["/storage/a.wav".toList] :=
  ⟨by decide, fun _ _ => rfl,
    (process_wav_files_paths okCallback 0 [entry "a.wav", entry "b.txt", entry "c.WAV"]
      (by decide) (fun _ _ => rfl)).1.trans (by decide)⟩

/-- C5: an entry whose full path "/storage/" + name does not fit the 300-byte
buffer (length of name + 9 >= 300) is skipped without aborting. The run is the
same as on the directory without that entry (same invocations, same returned
status). Every path passed to the handler is exactly "/storage/" followed by
the whole name of an entry that fits, never a truncated name. When no
invocation before the skipped entry failed, the entries read after it are
examined and handled as a directory of their own, from the state the earlier
entries left, and their status is the one returned; in particular a matching
entry that fits and comes right after the skipped one is passed to the
handler next. -/
theorem process_wav_files_skips_long {σ : Type} (cb : Callback σ) (user_data : σ)
    (front back : List dirent) (ent : dirent)
    (hlong : strlen ent.d_name + 9 ≥ 300) :
    file_manager_process_wav_files (some (front ++ ent :: back)) (some cb) user_data
        = file_manager_process_wav_files (some (front ++ back)) (some cb) user_data
      ∧ (∀ c ∈ (file_manager_process_wav_files (some (front ++ ent :: back)) (some cb)
            user_data).calls,
          ∃ e ∈ front ++ back, c.1 = "/storage/".toList ++ e.d_name
            ∧ strlen e.d_name + 9 < 300)
      ∧ ((∀ c ∈ (file_manager_process_wav_files (some front) (some cb) user_data).calls,
            c.2 = ESP_OK) →
          (file_manager_process_wav_files (some (front ++ ent :: back)) (some cb)
              user_data).calls
            = (file_manager_process_wav_files (some front) (some cb) user_data).calls
              ++ (file_manager_process_wav_files (some back) (some cb)
                  (file_manager_process_wav_files (some front) (some cb)
                    user_data).user).calls
          ∧ (file_manager_process_wav_files (some (front ++ ent :: back)) (some cb)
              user_data).outcome
            = (file_manager_process_wav_files (some back) (some cb)
                (file_manager_process_wav_files (some front) (some cb)
                  user_data).user).outcome)
      ∧ (∀ (next : dirent) (rest : List dirent), back = next :: rest →
          ".wav".toList <:+: next.d_name → strlen next.d_name + 9 < 300 →
          (∀ c ∈ (file_manager_process_wav_files (some front) (some cb) user_data).calls,
            c.2 = ESP_OK) →
          ∃ tail, (file_manager_process_wav_files (some (front ++ ent :: back)) (some cb)
              user_data).calls
            = (file_manager_process_wav_files (some front) (some cb) user_data).calls
              ++ ("/storage/".toList ++ next.d_name,
                  (cb ("/storage/".toList ++ next.d_name)
                    (file_manager_process_wav_files (some front) (some cb)
                      user_data).user).1) :: tail) := by
  have hlong1 : strlen ent.d_name + strlen "/storage/".toList ≥ FILEPATH_SIZE := by
    rw [strlen_storage, FILEPATH_SIZE]
    exact hlong
  have heq := process_loop_skip_long cb ent back hlong1 front ESP_OK user_data
  simp only [file_manager_process_wav_files]
  refine ⟨heq, ?_, ?_, ?_⟩
  · intro c hc
    rw [heq] at hc
    obtain ⟨e, he, h1, h2, _⟩ := process_loop_calls_from_entries cb (front ++ back) ESP_OK
      user_data c hc
    exact ⟨e, he, h1, h2⟩
  · intro hfront
    rw [heq]
    exact process_loop_append_of_ok cb back front user_data hfront
  · intro next rest hback hm hfit hfront
    rw [heq, (process_loop_append_of_ok cb back front user_data hfront).1, hback]
    obtain ⟨tail, htail⟩ := process_loop_handles_head cb next rest ESP_OK
      (process_loop (some cb) front ESP_OK user_data).user hm hfit
    exact ⟨tail, by rw [htail]⟩

/-- A directory a.wav, a 304-character name with the marker, b.wav: the
handler is invoked on a.wav and then on b.wav, and only on them. -/
theorem process_wav_files_skips_long_witness :
    strlen longEntry.d_name + 9 ≥ 300
      ∧ ".wav".toList <:+: longEntry.d_name
      ∧ (file_manager_process_wav_files
            (some ([entry "a.wav"] ++ longEntry :: [entry "b.wav"])) (some okCallback) 0).calls
          = [("/storage/a.wav".toList, ESP_OK), ("/storage/b.wav".toList, ESP_OK)]
      ∧ (file_manager_process_wav_files
            (some ([entry "a.wav"] ++ longEntry :: [entry "b.wav"])) (some okCallback) 0).outcome
          = Outcome.returned ESP_OK
      ∧ ∃ tail, (file_manager_process_wav_files
            (some ([entry "a.wav"] ++ longEntry :: [entry "b.wav"])) (some okCallback) 0).calls
          = (file_manager_process_wav_files (some [entry "a.wav"]) (some okCallback) 0).calls
            ++ ("/storage/".toList ++ (entry "b.wav").d_name,
                (okCallback ("/storage/".toList ++ (entry "b.wav").d_name)
                  (file_manager_process_wav_files (some [entry "a.wav"]) (some okCallback)
                    0).user).1) :: tail :=
  ⟨by simp only [longEntry, strlen, List.length_append, List.length_replicate]; omega,
    List.IsSuffix.isInfix ⟨List.replicate 300 'x', rfl⟩,
    (congrArg Run.calls
      (process_wav_files_skips_long okCallback 0 [entry "a.wav"] [entry "b.wav"] longEntry
        (by simp only [longEntry, strlen, List.length_append, List.length_replicate];
            omega)).1).trans (by decide),
    (congrArg Run.outcome
      (process_wav_files_skips_long okCallback 0 [entry "a.wav"] [entry "b.wav"] longEntry
        (by simp only [longEntry, strlen, List.length_append, List.length_replicate];
            omega)).1).trans (by decide),
    (process_wav_files_skips_long okCallback 0 [entry "a.wav"] [entry "b.wav"] longEntry
      (by simp only [longEntry, strlen, List.length_append, List.length_replicate];
          omega)).2.2.2 (entry "b.wav") [] rfl (by decide) (by decide) (by decide)⟩

/-- C6: when the directory cannot be opened the function returns `ESP_FAIL`
and the handler is not invoked; when it opens, the function returns `ESP_OK`
if every invocation it made returned `ESP_OK`, and with no matching entry the
handler is not invoked and `ESP_OK` is returned. -/
theorem process_wav_files_status {σ : Type} (cb : Callback σ) (user_data : σ)
    (entries : List dirent) :
    (file_manager_process_wav_files none (some cb) user_data).outcome
        = Outcome.returned ESP_FAIL
      ∧ (file_manager_process_wav_files none (some cb) user_data).calls = []
      ∧ ((∀ c ∈ (file_manager_process_wav_files (some entries) (some cb) user_data).calls,
            c.2 = ESP_OK) →
          (file_manager_process_wav_files (some entries) (some cb) user_data).outcome
            = Outcome.returned ESP_OK)
      ∧ ((∀ e ∈ entries, ¬ ".wav".toList <:+: e.d_name) →
          (file_manager_process_wav_files (some entries) (some cb) user_data).calls = []
            ∧ (file_manager_process_wav_files (some entries) (some cb) user_data).outcome
              = Outcome.returned ESP_OK) := by
  refine ⟨rfl, rfl, ?_, ?_⟩
  · intro h
    exact process_loop_ok_of_calls_ok cb entries user_data h
  · intro h
    simp only [file_manager_process_wav_files]
    rw [process_loop_no_match (some cb) entries ESP_OK user_data h]
    exact ⟨rfl, rfl⟩

/-- A directory b.txt, a.wav with a handler that succeeds: one invocation,
`ESP_OK` returned; a directory with b.txt only: no invocation. -/
theorem process_wav_files_status_witness :
    (∀ c ∈ (file_manager_process_wav_files (some [entry "b.txt", entry "a.wav"])
        (some okCallback) 0).calls, c.2 = ESP_OK)
      ∧ (file_manager_process_wav_files (some [entry "b.txt", entry "a.wav"])
          (some okCallback) 0).outcome = Outcome.returned ESP_OK :=
  ⟨by decide,
    (process_wav_files_status okCallback 0 [entry "b.txt", entry "a.wav"]).2.2.1 (by decide)⟩

/-- C7: on the directory-read sequence b.wav, a.wav the handler receives
"/storage/b.wav" first and "/storage/a.wav" second, which is the descending
order of the names: the function keeps the order of the directory read and
does not sort. -/
theorem process_wav_files_keeps_directory_order :
    (file_manager_process_wav_files (some [entry "b.wav", entry "a.wav"])
        (some okCallback) 0).paths = ["/storage/b.wav".toList, "/storage/a.wav".toList]
      ∧ "/storage/a.wav".toList < "/storage/b.wav".toList := by
  constructor
  · decide
  · decide

/-- C8: with a NULL callback the function returns `ESP_OK` on an empty
directory and `ESP_FAIL` when the directory cannot be opened, never
`ESP_ERR_INVALID_ARG`; on a directory with a matching entry it calls through
the NULL pointer. -/
theorem process_wav_files_null_callback :
    (file_manager_process_wav_files (some []) (none : Option (Callback Unit)) ()).outcome
        = Outcome.returned ESP_OK
      ∧ (file_manager_process_wav_files none (none : Option (Callback Unit)) ()).outcome
        = Outcome.returned ESP_FAIL
      ∧ (file_manager_process_wav_files (some [entry "a.wav"])
          (none : Option (Callback Unit)) ()).outcome = Outcome.nullCall
      ∧ ESP_OK ≠ ESP_ERR_INVALID_ARG ∧ ESP_FAIL ≠ ESP_ERR_INVALID_ARG := by
  refine ⟨by decide, by decide, by decide, by decide, by decide⟩

/-! ## Properties of `init_i2s` -/

/-- C4 as stated fails: when `i2s_new_channel` succeeds and
`i2s_channel_init_std_mode` fails, `init_i2s` returns the error after two
driver calls, none of them a release, and the channel is still allocated. -/
theorem init_i2s_keeps_channel_on_failure :
    (init_i2s (scriptedDriver ESP_OK ESP_FAIL ESP_OK) ()).ret = ESP_FAIL
      ∧ (init_i2s (scriptedDriver ESP_OK ESP_FAIL ESP_OK) ()).log
          = [(I2sCall.i2s_new_channel, ESP_OK), (I2sCall.i2s_channel_init_std_mode 7, ESP_FAIL)]
      ∧ channelAllocated (init_i2s (scriptedDriver ESP_OK ESP_FAIL ESP_OK) ()).log false = true := by
  refine ⟨by decide, by decide, by decide⟩

/-- C4, amended: when a step of `init_i2s` fails, `init_i2s` returns that
step's error at once and releases nothing. No driver call it makes is
`i2s_del_channel`. When the allocation fails, its error is returned after
that one call and nothing has been acquired. When the allocation succeeded and
mode initialization fails, that error is returned after those two calls and
the channel is still allocated; when enabling fails, that error is returned
after the three calls and the channel is still allocated. -/
theorem init_i2s_never_releases {σ : Type} (drv : I2sDriver σ) (hw : σ)
    (r1 : esp_err_t × Nat × σ) (r2 r3 : esp_err_t × σ)
    (h1 : drv.i2s_new_channel hw = r1)
    (h2 : drv.i2s_channel_init_std_mode r1.2.1 r1.2.2 = r2)
    (h3 : drv.i2s_channel_enable r1.2.1 r2.2 = r3) :
    (∀ c ∈ (init_i2s drv hw).log, c.1.isRelease = false)
      ∧ (r1.1 ≠ ESP_OK →
          (init_i2s drv hw).ret = r1.1
            ∧ (init_i2s drv hw).log = [(I2sCall.i2s_new_channel, r1.1)]
            ∧ channelAllocated (init_i2s drv hw).log false = false)
      ∧ (r1.1 = ESP_OK → r2.1 ≠ ESP_OK →
          (init_i2s drv hw).ret = r2.1
            ∧ (init_i2s drv hw).log = [(I2sCall.i2s_new_channel, ESP_OK),
                (I2sCall.i2s_channel_init_std_mode r1.2.1, r2.1)]
            ∧ channelAllocated (init_i2s drv hw).log false = true)
      ∧ (r1.1 = ESP_OK → r2.1 = ESP_OK → r3.1 ≠ ESP_OK →
          (init_i2s drv hw).ret = r3.1
            ∧ (init_i2s drv hw).log = [(I2sCall.i2s_new_channel, ESP_OK),
                (I2sCall.i2s_channel_init_std_mode r1.2.1, ESP_OK),
                (I2sCall.i2s_channel_enable r1.2.1, r3.1)]
            ∧ channelAllocated (init_i2s drv hw).log false = true) := by
  subst h1 h2 h3
  unfold init_i2s
  by_cases h1 : (drv.i2s_new_channel hw).1 = ESP_OK
  · by_cases h2 : (drv.i2s_channel_init_std_mode (drv.i2s_new_channel hw).2.1
        (drv.i2s_new_channel hw).2.2).1 = ESP_OK
    · by_cases h3 : (drv.i2s_channel_enable (drv.i2s_new_channel hw).2.1
          (drv.i2s_channel_init_std_mode (drv.i2s_new_channel hw).2.1
            (drv.i2s_new_channel hw).2.2).2).1 = ESP_OK
      · simp [h1, h2, h3, channelAllocated, I2sCall.isRelease]
      · simp [h1, h2, h3, channelAllocated, I2sCall.isRelease]
    · simp [h1, h2, channelAllocated, I2sCall.isRelease]
  · simp [h1, channelAllocated, I2sCall.isRelease]

/-- Allocation and mode initialization succeed and enabling fails with
`ESP_ERR_INVALID_STATE`: that status is returned after the three calls and the
channel stays allocated. -/
theorem init_i2s_never_releases_witness :
    (scriptedDriver ESP_OK ESP_OK ESP_ERR_INVALID_STATE).i2s_new_channel () = (ESP_OK, 7, ())
      ∧ (scriptedDriver ESP_OK ESP_OK ESP_ERR_INVALID_STATE).i2s_channel_init_std_mode 7 ()
          = (ESP_OK, ())
      ∧ (scriptedDriver ESP_OK ESP_OK ESP_ERR_INVALID_STATE).i2s_channel_enable 7 ()
          = (ESP_ERR_INVALID_STATE, ())
      ∧ ((init_i2s (scriptedDriver ESP_OK ESP_OK ESP_ERR_INVALID_STATE) ()).ret
            = ESP_ERR_INVALID_STATE
          ∧ (init_i2s (scriptedDriver ESP_OK ESP_OK ESP_ERR_INVALID_STATE) ()).log
            = [(I2sCall.i2s_new_channel, ESP_OK),
                (I2sCall.i2s_channel_init_std_mode 7, ESP_OK),
                (I2sCall.i2s_channel_enable 7, ESP_ERR_INVALID_STATE)]
          ∧ channelAllocated
              (init_i2s (scriptedDriver ESP_OK ESP_OK ESP_ERR_INVALID_STATE) ()).log false
            = true) :=
  ⟨rfl, rfl, rfl,
    (init_i2s_never_releases (scriptedDriver ESP_OK ESP_OK ESP_ERR_INVALID_STATE) ()
      (ESP_OK, 7, ()) (ESP_OK, ()) (ESP_ERR_INVALID_STATE, ()) rfl rfl rfl).2.2.2 rfl rfl
      (by decide)⟩

/-- C9: `init_i2s` attempts allocate, initialize standard mode, enable in that
order, each at most once, a step only after the earlier ones succeeded; the
first failing step ends the call with its own status; and `ESP_OK` is returned
exactly when all three succeeded. Here `r1`, `r2`, `r3` are the results of the
three driver calls on the states they are made in. -/
theorem init_i2s_steps {σ : Type} (drv : I2sDriver σ) (hw : σ)
    (r1 : esp_err_t × Nat × σ) (r2 r3 : esp_err_t × σ)
    (h1 : drv.i2s_new_channel hw = r1)
    (h2 : drv.i2s_channel_init_std_mode r1.2.1 r1.2.2 = r2)
    (h3 : drv.i2s_channel_enable r1.2.1 r2.2 = r3) :
    (r1.1 ≠ ESP_OK →
        (init_i2s drv hw).ret = r1.1
          ∧ (init_i2s drv hw).log = [(I2sCall.i2s_new_channel, r1.1)]
          ∧ (init_i2s drv hw).hw = r1.2.2)
      ∧ (r1.1 = ESP_OK → r2.1 ≠ ESP_OK →
        (init_i2s drv hw).ret = r2.1
          ∧ (init_i2s drv hw).log = [(I2sCall.i2s_new_channel, ESP_OK),
              (I2sCall.i2s_channel_init_std_mode r1.2.1, r2.1)]
          ∧ (init_i2s drv hw).hw = r2.2)
      ∧ (r1.1 = ESP_OK → r2.1 = ESP_OK → r3.1 ≠ ESP_OK →
        (init_i2s drv hw).ret = r3.1
          ∧ (init_i2s drv hw).log = [(I2sCall.i2s_new_channel, ESP_OK),
              (I2sCall.i2s_channel_init_std_mode r1.2.1, ESP_OK),
              (I2sCall.i2s_channel_enable r1.2.1, r3.1)]
          ∧ (init_i2s drv hw).hw = r3.2)
      ∧ (r1.1 = ESP_OK → r2.1 = ESP_OK → r3.1 = ESP_OK →
        (init_i2s drv hw).ret = ESP_OK
          ∧ (init_i2s drv hw).log = [(I2sCall.i2s_new_channel, ESP_OK),
              (I2sCall.i2s_channel_init_std_mode r1.2.1, ESP_OK),
              (I2sCall.i2s_channel_enable r1.2.1, ESP_OK)]
          ∧ (init_i2s drv hw).hw = r3.2)
      ∧ ((init_i2s drv hw).ret = ESP_OK ↔ r1.1 = ESP_OK ∧ r2.1 = ESP_OK ∧ r3.1 = ESP_OK) := by
  subst h1 h2 h3
  unfold init_i2s
  by_cases h1 : (drv.i2s_new_channel hw).1 = ESP_OK
  · by_cases h2 : (drv.i2s_channel_init_std_mode (drv.i2s_new_channel hw).2.1
        (drv.i2s_new_channel hw).2.2).1 = ESP_OK
    · by_cases h3 : (drv.i2s_channel_enable (drv.i2s_new_channel hw).2.1
          (drv.i2s_channel_init_std_mode (drv.i2s_new_channel hw).2.1
            (drv.i2s_new_channel hw).2.2).2).1 = ESP_OK
      · simp [h1, h2, h3]
      · simp [h1, h2, h3]
    · simp [h1, h2]
  · simp [h1]

/-- Allocation succeeds and mode initialization fails with `ESP_FAIL`: two
calls, `ESP_FAIL` returned, no enable. -/
theorem init_i2s_steps_witness :
    (scriptedDriver ESP_OK ESP_FAIL ESP_OK).i2s_new_channel () = (ESP_OK, 7, ())
      ∧ (scriptedDriver ESP_OK ESP_FAIL ESP_OK).i2s_channel_init_std_mode 7 () = (ESP_FAIL, ())
      ∧ (scriptedDriver ESP_OK ESP_FAIL ESP_OK).i2s_channel_enable 7 () = (ESP_OK, ())
      ∧ (init_i2s (scriptedDriver ESP_OK ESP_FAIL ESP_OK) ()).ret = ESP_FAIL
      ∧ (init_i2s (scriptedDriver ESP_OK ESP_FAIL ESP_OK) ()).log
          = [(I2sCall.i2s_new_channel, ESP_OK), (I2sCall.i2s_channel_init_std_mode 7, ESP_FAIL)] :=
  ⟨rfl, rfl, rfl,
    ((init_i2s_steps (scriptedDriver ESP_OK ESP_FAIL ESP_OK) () (ESP_OK, 7, ()) (ESP_FAIL, ())
      (ESP_OK, ()) rfl rfl rfl).2.1 rfl (by decide)).1,
    by decide⟩

/-! ## Properties of the mount state -/

theorem file_manager_init_ok {π : Type} (P : Spiffs π) (cfg : file_manager_config_t)
    (st : FmState π) (hr : (P.esp_vfs_spiffs_register cfg st.platform).1 = ESP_OK) :
    file_manager_init P (some cfg) st
      = (ESP_OK, ⟨cfg.partition_label, (P.esp_vfs_spiffs_register cfg st.platform).2⟩) := by
  simp only [file_manager_init]
  rw [if_neg (not_not.mpr hr)]

theorem file_manager_init_fail {π : Type} (P : Spiffs π) (cfg : file_manager_config_t)
    (st : FmState π) (hr : (P.esp_vfs_spiffs_register cfg st.platform).1 ≠ ESP_OK) :
    file_manager_init P (some cfg) st
      = ((P.esp_vfs_spiffs_register cfg st.platform).1,
          ⟨st.current_partition_label, (P.esp_vfs_spiffs_register cfg st.platform).2⟩) := by
  simp only [file_manager_init]
  rw [if_pos hr]

/-- While the header's condition holds (no successful `file_manager_init`
since the start or the last `file_manager_deinit`), the label is NULL. -/
theorem replay_unmounted_label {π : Type} (P : Spiffs π) (ops : List FmOp) :
    ∀ (st : FmState π) (unmounted : Bool),
      (unmounted = true → st.current_partition_label = none) →
      (replay P ops st unmounted).2 = true →
      (replay P ops st unmounted).1.current_partition_label = none := by
  induction ops with
  | nil =>
    intro st unmounted hinv h
    exact hinv h
  | cons op rest ih =>
    intro st unmounted hinv h
    cases op with
    | init config =>
      rw [replay] at h ⊢
      apply ih _ _ _ h
      intro hflag
      cases config with
      | none =>
        simp only [file_manager_init] at hflag ⊢
        by_cases hu : unmounted = true
        · exact hinv hu
        · simp [hu, ESP_ERR_INVALID_ARG, ESP_OK] at hflag
      | some cfg =>
        by_cases hr : (P.esp_vfs_spiffs_register cfg st.platform).1 = ESP_OK
        · rw [file_manager_init_ok P cfg st hr] at hflag
          simp at hflag
        · rw [file_manager_init_fail P cfg st hr] at hflag ⊢
          rw [if_neg hr] at hflag
          exact hinv hflag
    | deinit =>
      rw [replay] at h ⊢
      apply ih _ _ _ h
      intro _
      unfold file_manager_deinit
      cases hl : st.current_partition_label with
      | none => simp [hl]
      | some label => simp
    | get_info =>
      rw [replay] at h ⊢
      exact ih st unmounted hinv h

/-- C10 as stated fails: before any `file_manager_init`, and after an
init followed by `file_manager_deinit`, `file_manager_get_info` returns
`ESP_ERR_INVALID_STATE`, which is not `ESP_FAIL`. -/
theorem get_info_unmounted_not_esp_fail :
    (file_manager_get_info toySpiffs (FmState.initial ()) 0 0).1 = ESP_ERR_INVALID_STATE
      ∧ (file_manager_get_info toySpiffs
          (replay toySpiffs [FmOp.init (some fm_config), FmOp.deinit]
            (FmState.initial ()) true).1 0 0).1 = ESP_ERR_INVALID_STATE
      ∧ ESP_ERR_INVALID_STATE ≠ ESP_FAIL := by
  refine ⟨by decide, by decide, by decide⟩

/-- C10, amended: in every state reached from program start by calls of the
interface in which no `file_manager_init` has succeeded yet, or
`file_manager_deinit` has been called since the last successful one,
`file_manager_get_info` returns `ESP_ERR_INVALID_STATE` and leaves the two
outputs as they were. -/
theorem get_info_unmounted_invalid_state {π : Type} (P : Spiffs π) (p0 : π)
    (ops : List FmOp) (total used : Nat)
    (hunmounted : (replay P ops (FmState.initial p0) true).2 = true) :
    file_manager_get_info P (replay P ops (FmState.initial p0) true).1 total used
      = (ESP_ERR_INVALID_STATE, total, used) := by
  have h := replay_unmounted_label P ops (FmState.initial p0) true (fun _ => rfl) hunmounted
  unfold file_manager_get_info
  rw [h]

/-- A mount, a query and an unmount: the next query returns
`ESP_ERR_INVALID_STATE`. -/
theorem get_info_unmounted_invalid_state_witness :
    (replay toySpiffs [FmOp.init (some fm_config), FmOp.get_info, FmOp.deinit]
        (FmState.initial ()) true).2 = true
      ∧ file_manager_get_info toySpiffs
          (replay toySpiffs [FmOp.init (some fm_config), FmOp.get_info, FmOp.deinit]
            (FmState.initial ()) true).1 3 4 = (ESP_ERR_INVALID_STATE, 3, 4) :=
  ⟨by decide,
    get_info_unmounted_invalid_state toySpiffs ()
      [FmOp.init (some fm_config), FmOp.get_info, FmOp.deinit] 3 4 (by decide)⟩

/-! ## Properties of the WAV player -/

/-- C3: for every valid mono or stereo 16-bit PCM WAV file, a scratch buffer
of at least one byte and a sink that never fails, `wav_player_play_file`
returns success and the blocks it passes to the sink, put end to end, are
exactly the payload of the data sub-chunk (its declared `dataLength` bytes, in
file order, nothing of what follows them); each block has between one and
`capacity` bytes and the block lengths add up to `dataLength`. -/
theorem play_delivers_payload {σ : Type} (capacity : Nat) (w : WavFile) (sink : Sink σ)
    (user_data : σ) (hcap : 0 < capacity) (hvalid : w.Valid)
    (hok : ∀ (b : List Nat) (s : σ), (sink b s).1 = ESP_OK) :
    (wav_player_play_file capacity (some w.encode) sink user_data).status = PlayStatus.success
      ∧ (wav_player_play_file capacity (some w.encode) sink user_data).writes.flatten
          = w.payload
      ∧ (∀ b ∈ (wav_player_play_file capacity (some w.encode) sink user_data).writes,
          0 < b.length ∧ b.length ≤ capacity)
      ∧ ((wav_player_play_file capacity (some w.encode) sink user_data).writes.map
          List.length).sum = w.payload.length := by
  obtain ⟨_, hfmtlen, hpaylen, hbefore, hbetween⟩ := hvalid
  obtain ⟨hpro, hdrop⟩ := encode_prologue w
  obtain ⟨hfuel1, hfuel2⟩ := encode_fuel w
  obtain ⟨fmt, hF⟩ := scanFormat_chunks w
    (encodeChunks w.between
      ++ (tagBytes "data" ++ le32 w.payload.length ++ (w.payload ++ w.trailer)))
    hfmtlen w.before w.encode.length hfuel1 hbefore
  have hD := scanData_chunks w.payload.length (w.payload ++ w.trailer) hpaylen w.between
    w.encode.length hfuel2 hbetween
  obtain ⟨h1, h2, h3, h4⟩ := streamData_delivers capacity sink hcap hok w.payload.length
    w.payload.length (w.payload ++ w.trailer) user_data (le_refl _)
    (by rw [List.length_append]; omega)
  have hrun : wav_player_play_file capacity (some w.encode) sink user_data
      = streamData capacity sink w.payload.length w.payload.length (w.payload ++ w.trailer)
          user_data := by
    simp only [wav_player_play_file]
    rw [if_neg hpro, hdrop, hF]
    simp only [hD]
  rw [hrun]
  refine ⟨h1, ?_, h3, h4⟩
  rw [h2]
  exact List.take_left' rfl

/-- The sample file through a two-byte buffer: three blocks. -/
theorem play_delivers_payload_witness :
    0 < 2 ∧ sampleWav.Valid
      ∧ (∀ (b : List Nat) (s : List Nat), (recordingSink b s).1 = ESP_OK)
      ∧ (wav_player_play_file 2 (some sampleWav.encode) recordingSink []).writes
          = [[10, 11], [12, 13], [14]]
      ∧ ((wav_player_play_file 2 (some sampleWav.encode) recordingSink []).status
            = PlayStatus.success
          ∧ (wav_player_play_file 2 (some sampleWav.encode) recordingSink []).writes.flatten
            = sampleWav.payload
          ∧ (∀ b ∈ (wav_player_play_file 2 (some sampleWav.encode) recordingSink []).writes,
              0 < b.length ∧ b.length ≤ 2)
          ∧ ((wav_player_play_file 2 (some sampleWav.encode) recordingSink []).writes.map
              List.length).sum = sampleWav.payload.length) :=
  ⟨by decide, by decide, fun _ _ => rfl, by decide,
    play_delivers_payload 2 sampleWav recordingSink [] (by decide) (by decide)
      (fun _ _ => rfl)⟩

end WavPlayer
